import Mathlib

/-!
Shallow embedding of the measurement-and-classification engine of the
network-information-api-polyfill repository (`src/network-information.ts`,
the `createNetworkInformation` closure and its exported helper functions),
together with proofs of the specification claims about it.

JavaScript numbers are modelled as exact rationals extended with the three
non-finite IEEE values (`nan`, `posInf`, `negInf`); the comparisons used by
the source (`<`, `<=`, `>`, `isFinite`) are defined with IEEE semantics
(every comparison involving NaN is false).  All arithmetic performed on the
embedded code paths stays within the finite rationals, so exact rational
arithmetic models it faithfully up to floating-point rounding, which no
claim depends on.

The I/O boundary (the injected `fetch`, `performance.now`, the resource
timing lookup and the text/regex parsing of the `server-timing` header) is
modelled by oracle inputs: each probe's outcome (the value returned by
`performSingleMeasurement`) is an input to the measurement-cycle model, and
`buildTiming` receives the already-parsed byte count, header value and
timestamps as arguments.
-/

set_option allowUnsafeReducibility true in
attribute [semireducible] Rat.ofScientific Rat.add Rat.mul Rat.inv Rat.div Rat.sub Rat.neg

deriving instance DecidableEq for Except

/-- Model of a JavaScript number: an exact rational or one of the three
non-finite IEEE values. -/
inductive JSNum where
  | nan
  | posInf
  | negInf
  | fin (q : ℚ)
  deriving DecidableEq, Repr

/-- JavaScript `isFinite`. -/
def JSNum.isFinite : JSNum → Bool
  | .fin _ => true
  | _ => false

/-- JavaScript `<` (IEEE semantics: any comparison with NaN is false). -/
def JSNum.lt : JSNum → JSNum → Bool
  | .fin a, .fin b => decide (a < b)
  | .fin _, .posInf => true
  | .negInf, .fin _ => true
  | .negInf, .posInf => true
  | _, _ => false

/-- JavaScript `<=` (IEEE semantics: any comparison with NaN is false). -/
def JSNum.le : JSNum → JSNum → Bool
  | .fin a, .fin b => decide (a ≤ b)
  | .fin _, .posInf => true
  | .negInf, .fin _ => true
  | .negInf, .posInf => true
  | .negInf, .negInf => true
  | .posInf, .posInf => true
  | _, _ => false

/-- JavaScript `>`. -/
def JSNum.gt (a b : JSNum) : Bool := JSNum.lt b a

/-- The `EffectiveConnectionType` union from `src/types.ts`. -/
inductive EffectiveConnectionType where
  | slow2g
  | twoG
  | threeG
  | fourG
  deriving DecidableEq, Repr

/-- The `NetworkType` union from `src/types.ts`. -/
inductive NetworkType where
  | bluetooth
  | cellular
  | ethernet
  | noConnection
  | wifi
  | wimax
  | other
  | unknown
  deriving DecidableEq, Repr

/-- One rule of a classification table (`ConnectionClassification` in
`src/types.ts`).  The optional `description` string carries no semantics
and is left at `none` in the table literals below. -/
structure ConnectionClassification where
  type : EffectiveConnectionType
  maxDownlink : Option ℚ := none
  minRtt : Option ℚ := none
  description : Option String := none
  deriving DecidableEq, Repr

/-- The WICG classification table from `src/classifications/wicg.ts`. -/
def wicgClassification : List ConnectionClassification :=
  [ { type := .slow2g, maxDownlink := some 0.05, minRtt := some 1400 },
    { type := .twoG, maxDownlink := some 0.07, minRtt := some 270 },
    { type := .threeG, maxDownlink := some 0.7 },
    { type := .fourG } ]

/-- The `exceedsDownlinkLimit` test inside the scan loop of
`_classifyConnection`: the rule has a `maxDownlink` bound and the measured
downlink is strictly below it. -/
def exceedsDownlinkLimit (classification : ConnectionClassification)
    (downlinkMbps : JSNum) : Bool :=
  match classification.maxDownlink with
  | some bound => downlinkMbps.lt (.fin bound)
  | none => false

/-- The `exceedsRttLimit` test inside the scan loop of
`_classifyConnection`: the rule has a `minRtt` bound and the measured
latency is strictly above it. -/
def exceedsRttLimit (classification : ConnectionClassification)
    (rttMs : JSNum) : Bool :=
  match classification.minRtt with
  | some bound => rttMs.gt (.fin bound)
  | none => false

/-- The exported `_classifyConnection` function.  Indexing a position that
does not exist (`classificationTable[0]` or `[length - 1]` on an empty
table) throws a `TypeError` in JavaScript; that is modelled by
`Except.error`. -/
def _classifyConnection (classificationTable : List ConnectionClassification)
    (downlinkMbps rttMs : JSNum) : Except Unit EffectiveConnectionType :=
  if !downlinkMbps.isFinite || downlinkMbps.le (.fin 0) ||
      !rttMs.isFinite || rttMs.lt (.fin 0) then
    match classificationTable.head? with
    | some c => .ok c.type
    | none => .error ()
  else
    match classificationTable.find? fun c =>
        exceedsDownlinkLimit c downlinkMbps || exceedsRttLimit c rttMs with
    | some c => .ok c.type
    | none =>
      match classificationTable.getLast? with
      | some c => .ok c.type
      | none => .error ()

/-- Rule-match predicate written from the specification's words: the rule
has a throughput ceiling and the measured throughput is below it, or the
rule has a latency floor and the measured latency exceeds it
(inclusive OR). -/
def specRuleMatches (c : ConnectionClassification) (downlink latency : ℚ) : Bool :=
  (match c.maxDownlink with
   | some bound => decide (downlink < bound)
   | none => false) ||
  (match c.minRtt with
   | some bound => decide (latency > bound)
   | none => false)

/-- Classification written from the specification's words, for valid
measurements: scan in order, return the first matching rule's label,
else the last rule's label (`none` only for an empty table). -/
def specClassify (table : List ConnectionClassification)
    (downlink latency : ℚ) : Option EffectiveConnectionType :=
  match table.find? (fun c => specRuleMatches c downlink latency) with
  | some c => some c.type
  | none => table.getLast?.map (·.type)

/-- The exported `_median` function.  `Math.floor(arr.length / 2)` is
natural division; an out-of-range index (only possible for the empty
array, where JavaScript yields `undefined` and the arithmetic yields
`NaN`) is modelled by `none`. -/
def _median (arr : List ℚ) : Option ℚ :=
  let mid := arr.length / 2
  if arr.length % 2 ≠ 0 then arr[mid]?
  else
    match arr[mid - 1]?, arr[mid]? with
    | some a, some b => some ((a + b) / 2)
    | _, _ => none

/-- Sort ascending (the `.sort((a, b) => a - b)` calls in
`updateFromMeasurements`) and take the `_median`; this is the composition
the aggregation step applies to each metric list. -/
def sortedMedian (l : List ℚ) : Option ℚ :=
  _median (List.insertionSort (· ≤ ·) l)

/-- The slice of a `PerformanceResourceTiming` entry read by
`buildTiming`. -/
structure PerformanceResourceTiming where
  requestStart : ℚ
  responseStart : ℚ
  responseEnd : ℚ
  transferSize : ℚ
  deriving DecidableEq, Repr

/-- The record returned by `buildTiming` (the returned `perf` echo is
dropped: no caller reads it). -/
structure TimingResult where
  ping : ℚ
  bps : ℚ
  duration : ℚ
  deriving DecidableEq, Repr

/-- The expression `getServerTimeFromResponse(res) || estimatedServerTime`:
the parsed `dur=` header value when present and non-zero (zero is falsy in
JavaScript), else the configured estimate. -/
def resolveServerTime (serverTimingHeader : Option ℚ)
    (estimatedServerTime : ℚ) : ℚ :=
  match serverTimingHeader with
  | some v => if v = 0 then estimatedServerTime else v
  | none => estimatedServerTime

/-- The `buildTiming` closure.  The resource-timing lookup, the URL parse
of the `bytes` query parameter and the `server-timing` header parse are
oracle inputs (`perf`, `numBytes`, `serverTimingHeader`). -/
def buildTiming (estimatedServerTime estimatedHeaderFraction : ℚ)
    (perf : Option PerformanceResourceTiming) (numBytes : ℕ)
    (serverTimingHeader : Option ℚ)
    (startTime endTime : Option ℚ) : Option TimingResult :=
  let serverTime := resolveServerTime serverTimingHeader estimatedServerTime
  let core : Option (ℚ × ℚ × ℚ) :=
    match perf with
    | some p =>
      let ttfb := p.responseStart - p.requestStart
      let payloadDownloadTime := p.responseEnd - p.responseStart
      let ping := max 0.01 (ttfb - serverTime)
      let networkDuration := ping + payloadDownloadTime
      let transferSize :=
        if p.transferSize = 0 then (numBytes : ℚ) * (1 + estimatedHeaderFraction)
        else p.transferSize
      some (ping, networkDuration, transferSize)
    | none =>
      match startTime, endTime with
      | some s, some e =>
        let totalDuration := e - s
        let networkDuration := max 1 (totalDuration - serverTime)
        let ping :=
          if numBytes = 0 then max 1 (networkDuration * 0.9)
          else min (networkDuration * 0.3) 200
        let transferSize := (numBytes : ℚ) * (1 + estimatedHeaderFraction)
        some (ping, networkDuration, transferSize)
      | _, _ => none
  match core with
  | none => none
  | some (ping, networkDuration, transferSize) =>
    let bits := 8 * transferSize
    let downloadTime := if numBytes = 0 then 0 else max 1 (networkDuration - ping)
    let bps := if numBytes = 0 then 0 else bits / (downloadTime / 1000)
    some { ping := ping, bps := bps, duration := networkDuration }

/-- The `NetworkMeasurement` record from `src/types.ts`. -/
structure NetworkMeasurement where
  rtt : ℚ
  downlink : ℚ
  measurementSize : ℚ
  duration : ℚ
  realDuration : ℚ
  timestamp : ℚ
  deriving DecidableEq, Repr

/-- The mutable closure state of `createNetworkInformation` (the aggregated
connection fields plus the run-state flags; the timer bookkeeping is not
modelled). -/
structure EngineState where
  downlink : Option ℚ
  uplink : Option ℚ
  rtt : Option ℚ
  effectiveType : Option EffectiveConnectionType
  saveData : Bool
  type : NetworkType
  measuring : Bool
  lastMeasurement : ℚ
  deriving DecidableEq, Repr

/-- The state right after construction (`let downlink: number | undefined;`
etc.). -/
def initialEngineState : EngineState :=
  { downlink := none, uplink := none, rtt := none, effectiveType := none,
    saveData := false, type := .unknown, measuring := false,
    lastMeasurement := 0 }

/-- Payload of a `change` event (`NetworkChangeEventDetail`). -/
structure NetworkChangeEventDetail where
  downlink : Option ℚ
  uplink : Option ℚ
  rtt : Option ℚ
  effectiveType : Option EffectiveConnectionType
  preliminary : Bool
  deriving DecidableEq, Repr

/-- Result of one `updateNetworkProperties` call: the state after the call,
the `change` event it dispatched (if any), and whether it threw (which in
the source only `_classifyConnection` on an empty table can cause; the
assignments to `downlink`, `rtt` and `uplink` precede the throwing call and
are kept). -/
structure UpdateResult where
  st : EngineState
  event : Option NetworkChangeEventDetail
  threw : Bool
  deriving DecidableEq, Repr

/-- The `updateNetworkProperties` closure. -/
def updateNetworkProperties (table : List ConnectionClassification)
    (st : EngineState) (newDownlink newRtt : ℚ)
    (isPreliminary : Bool) : UpdateResult :=
  let prevEffectiveType := st.effectiveType
  let st1 := { st with downlink := some newDownlink, rtt := some newRtt,
                       uplink := some (newDownlink * 0.5) }
  match _classifyConnection table (.fin newDownlink) (.fin newRtt) with
  | .error _ => { st := st1, event := none, threw := true }
  | .ok et =>
    let st2 := { st1 with effectiveType := some et }
    if prevEffectiveType ≠ some et ∨ isPreliminary = false then
      { st := st2,
        event := some { downlink := st2.downlink, uplink := st2.uplink,
                        rtt := st2.rtt, effectiveType := st2.effectiveType,
                        preliminary := isPreliminary },
        threw := false }
    else { st := st2, event := none, threw := false }

/-- The `updateFromMeasurements` closure: no-op on an empty sample list,
else the median of the sorted downlinks and the median of the sorted rtts
are fed to `updateNetworkProperties` as a final (non-preliminary) update.
The `none` median branch is unreachable for a nonempty list. -/
def updateFromMeasurements (table : List ConnectionClassification)
    (st : EngineState) (measurements : List NetworkMeasurement) : UpdateResult :=
  if measurements.isEmpty then { st := st, event := none, threw := false }
  else
    match sortedMedian (measurements.map (·.downlink)),
          sortedMedian (measurements.map (·.rtt)) with
    | some downlinkMedian, some rttMedian =>
      updateNetworkProperties table st downlinkMedian rttMedian false
    | _, _ => { st := st, event := none, threw := false }

/-- One observable step of a measurement cycle: a probe issued (one
`performSingleMeasurement` call, i.e. one latency plus one download
request pair) or a `change` event dispatched, in program order. -/
inductive TraceItem where
  | probe (index : ℕ)
  | change (detail : NetworkChangeEventDetail)
  deriving DecidableEq, Repr

/-- The `change` events of a trace, in order. -/
def changeEvents (trace : List TraceItem) : List NetworkChangeEventDetail :=
  trace.filterMap fun item =>
    match item with
    | .change e => some e
    | _ => none

/-- Result of the probe loop of `measureNetworkSpeed`. -/
structure CycleResult where
  st : EngineState
  measurements : List NetworkMeasurement
  trace : List TraceItem
  threw : Bool
  deriving Repr

/-- The `for` loop of `measureNetworkSpeed`, iterating over the probe
indices.  `outcomes i` is the oracle for what `performSingleMeasurement`
returns at index `i` (`none` both for a transport failure and for a
timing-unavailable result).  A throw from the preliminary
`updateNetworkProperties` call aborts the loop and propagates. -/
def measureLoop (table : List ConnectionClassification)
    (measurementCount : ℕ) (outcomes : ℕ → Option NetworkMeasurement) :
    List ℕ → EngineState → CycleResult
  | [], st => { st := st, measurements := [], trace := [], threw := false }
  | i :: rest, st =>
    match outcomes i with
    | none =>
      let r := measureLoop table measurementCount outcomes rest st
      { st := r.st, measurements := r.measurements,
        trace := .probe i :: r.trace, threw := r.threw }
    | some m =>
      if i = 0 ∧ measurementCount > 1 then
        let u := updateNetworkProperties table st m.downlink m.rtt true
        if u.threw then
          { st := u.st, measurements := [m], trace := [.probe i], threw := true }
        else
          let r := measureLoop table measurementCount outcomes rest u.st
          { st := r.st, measurements := m :: r.measurements,
            trace := .probe i :: ((u.event.map .change).toList ++ r.trace),
            threw := r.threw }
      else
        let r := measureLoop table measurementCount outcomes rest st
        { st := r.st, measurements := m :: r.measurements,
          trace := .probe i :: r.trace, threw := r.threw }

/-- The `measureNetworkSpeed` closure: run the probe loop for indices
`0 .. measurementCount - 1`. -/
def measureNetworkSpeed (table : List ConnectionClassification)
    (measurementCount : ℕ) (outcomes : ℕ → Option NetworkMeasurement)
    (st : EngineState) : CycleResult :=
  measureLoop table measurementCount outcomes (List.range measurementCount) st

/-- The `performMeasurement` closure: the re-entrancy guard, the run-state
updates, the cycle, the final aggregation, and the `try`/`catch`/`finally`
that swallows a thrown classification error and always clears the
`measuring` flag.  Returns the final state and the observable trace. -/
def performMeasurement (table : List ConnectionClassification)
    (measurementCount : ℕ) (outcomes : ℕ → Option NetworkMeasurement)
    (st : EngineState) (now : ℚ) : EngineState × List TraceItem :=
  if st.measuring then (st, [])
  else
    let st1 := { st with measuring := true, lastMeasurement := now }
    let r := measureNetworkSpeed table measurementCount outcomes st1
    if r.threw then ({ r.st with measuring := false }, r.trace)
    else
      let u := updateFromMeasurements table r.st r.measurements
      ({ u.st with measuring := false },
       r.trace ++ (u.event.map TraceItem.change).toList)

/-- Decidable form of the claimed state invariant: whenever `downlink` is
set, `uplink` is exactly half of it; `saveData` is `false`; `type` is the
fixed sentinel `unknown`. -/
def stateInvariantB (st : EngineState) : Bool :=
  (match st.downlink with
   | none => true
   | some d => decide (st.uplink = some (d * 0.5))) &&
  !st.saveData &&
  decide (st.type = NetworkType.unknown)

/-- A concrete successful probe sample (downlink 2 Mbps, rtt 50 ms):
classified `4g` by the WICG table. -/
def sampleA : NetworkMeasurement :=
  { rtt := 50, downlink := 2, measurementSize := 100000, duration := 100,
    realDuration := 110, timestamp := 0 }

/-- A second concrete successful probe sample (downlink 3 Mbps, rtt 40 ms):
also classified `4g` by the WICG table. -/
def sampleB : NetworkMeasurement :=
  { rtt := 40, downlink := 3, measurementSize := 100000, duration := 80,
    realDuration := 90, timestamp := 1 }

/-- Probe-outcome oracle: the first probe succeeds with `sampleA`, every
later probe's transport fails. -/
def firstProbeOnlyOutcomes : ℕ → Option NetworkMeasurement :=
  fun i => if i = 0 then some sampleA else none

/-- Probe-outcome oracle for a follow-up cycle: the first probe succeeds
with `sampleB`, every later probe's transport fails. -/
def secondCycleOutcomes : ℕ → Option NetworkMeasurement :=
  fun i => if i = 0 then some sampleB else none

/-- The engine state after one complete two-probe cycle on the WICG table
in which only the first probe succeeded (`effectiveType` is `4g`,
`measuring` is back to `false`). -/
def stateAfterFirstCycle : EngineState :=
  (performMeasurement wicgClassification 2 firstProbeOnlyOutcomes
    initialEngineState 0).1

/-- On any nonempty table `_classifyConnection` never throws: every branch
returns a label. -/
theorem classifyConnection_ok_of_ne_nil (table : List ConnectionClassification)
    (hT : table ≠ []) (d r : JSNum) :
    ∃ l, _classifyConnection table d r = .ok l := by
  unfold _classifyConnection
  split
  · cases table with
    | nil => exact absurd rfl hT
    | cons c rest => exact ⟨c.type, rfl⟩
  · rcases hf : table.find? fun c =>
        exceedsDownlinkLimit c d || exceedsRttLimit c r with _ | c
    · rcases hl : table.getLast? with _ | c
      · exact absurd (List.getLast?_eq_none_iff.mp hl) hT
      · exact ⟨c.type, rfl⟩
    · exact ⟨c.type, rfl⟩

/-- C1: for a nonempty table and valid measurements (finite downlink > 0,
finite latency >= 0), `_classifyConnection` scans the table in order and
returns the first rule whose throughput ceiling or latency floor matches
(inclusive OR), else the last rule's label; and the seven WICG-table
example classifications hold. -/
theorem classifyConnection_scan_spec (T : List ConnectionClassification)
    (d r : ℚ) (_hT : T ≠ []) (hd : 0 < d) (hr : 0 ≤ r) :
    (_classifyConnection T (.fin d) (.fin r)
      = (specClassify T d r).elim (.error ()) Except.ok) ∧
    _classifyConnection wicgClassification (.fin 0.04) (.fin 100) = .ok .slow2g ∧
    _classifyConnection wicgClassification (.fin 0.1) (.fin 1500) = .ok .slow2g ∧
    _classifyConnection wicgClassification (.fin 0.06) (.fin 100) = .ok .twoG ∧
    _classifyConnection wicgClassification (.fin 0.1) (.fin 500) = .ok .twoG ∧
    _classifyConnection wicgClassification (.fin 0.5) (.fin 100) = .ok .threeG ∧
    _classifyConnection wicgClassification (.fin 0.7) (.fin 100) = .ok .fourG ∧
    _classifyConnection wicgClassification (.fin 2) (.fin 50) = .ok .fourG := by
  refine ⟨?_, by decide, by decide, by decide, by decide, by decide,
    by decide, by decide⟩
  have h1 : ¬ d ≤ 0 := not_le.mpr hd
  have h2 : ¬ r < 0 := not_lt.mpr hr
  have hpred : (fun c => exceedsDownlinkLimit c (.fin d) ||
      exceedsRttLimit c (.fin r)) = fun c => specRuleMatches c d r := by
    funext c
    unfold exceedsDownlinkLimit exceedsRttLimit specRuleMatches JSNum.gt
    cases c.maxDownlink <;> cases c.minRtt <;> rfl
  unfold _classifyConnection
  rw [if_neg (by simp [JSNum.isFinite, JSNum.le, JSNum.lt, h1, h2])]
  rw [hpred]
  unfold specClassify
  rcases T.find? fun c => specRuleMatches c d r with _ | c
  · rcases T.getLast? with _ | c <;> rfl
  · rfl

/-- C2: on a nonempty table, an invalid downlink (not a finite positive
number) or an invalid latency (not a finite non-negative number) makes
`_classifyConnection` return the first rule's label, whatever the other
argument and the rest of the table are. -/
theorem classifyConnection_invalid_first_label
    (c0 : ConnectionClassification) (rest : List ConnectionClassification)
    (d r : JSNum)
    (h : (¬ ∃ q : ℚ, d = .fin q ∧ 0 < q) ∨ (¬ ∃ q : ℚ, r = .fin q ∧ 0 ≤ q)) :
    _classifyConnection (c0 :: rest) d r = .ok c0.type := by
  have hcond : (!d.isFinite || d.le (.fin 0) ||
      !r.isFinite || r.lt (.fin 0)) = true := by
    rcases h with h | h
    · cases d with
      | fin q =>
        have hq : q ≤ 0 := not_lt.mp fun hq => h ⟨q, rfl, hq⟩
        simp [JSNum.isFinite, JSNum.le, hq]
      | nan => simp [JSNum.isFinite]
      | posInf => simp [JSNum.isFinite]
      | negInf => simp [JSNum.isFinite]
    · cases r with
      | fin q =>
        have hq : q < 0 := not_le.mp fun hq => h ⟨q, rfl, hq⟩
        simp [JSNum.isFinite, JSNum.lt, hq]
      | nan => simp [JSNum.isFinite]
      | posInf => simp [JSNum.isFinite]
      | negInf => simp [JSNum.isFinite]
  unfold _classifyConnection
  rw [if_pos hcond]
  rfl

/-- C9: on an empty classification table `_classifyConnection` throws for
every input (both the defensive branch and the scan fall off the table and
index a missing element). -/
theorem classifyConnection_empty_table_throws (d r : JSNum) :
    _classifyConnection [] d r = .error () := by
  unfold _classifyConnection
  split <;> rfl

/-- `_median` returns a value on every nonempty list. -/
theorem median_isSome_of_ne_nil (l : List ℚ) (h : l ≠ []) :
    ∃ q, _median l = some q := by
  have hlen : 0 < l.length := List.length_pos.mpr h
  have hmid : l.length / 2 < l.length := Nat.div_lt_self hlen (by norm_num)
  unfold _median
  by_cases hp : l.length % 2 ≠ 0
  · rw [if_pos hp, List.getElem?_eq_getElem hmid]
    exact ⟨_, rfl⟩
  · rw [if_neg hp, List.getElem?_eq_getElem
      (lt_of_le_of_lt (Nat.sub_le _ _) hmid), List.getElem?_eq_getElem hmid]
    exact ⟨_, rfl⟩

/-- `sortedMedian` returns a value on every nonempty list. -/
theorem sortedMedian_isSome_of_ne_nil (l : List ℚ) (h : l ≠ []) :
    ∃ q, sortedMedian l = some q := by
  apply median_isSome_of_ne_nil
  intro hnil
  have := List.length_insertionSort (fun a b : ℚ => a ≤ b) l
  rw [hnil] at this
  exact h (List.eq_nil_of_length_eq_zero this.symm)

/-- C8: `updateFromMeasurements` aggregates by sorting the downlinks and
the rtts of the collected samples independently (not paired per-sample)
and feeding the `sortedMedian` of each to a final update; and the median
(sort ascending, middle element for an odd count, average of the two
middle elements for an even count) takes the claimed values on the four
example lists. -/
theorem updateFromMeasurements_median_spec
    (table : List ConnectionClassification) (st : EngineState)
    (measurements : List NetworkMeasurement) (h : measurements ≠ []) :
    (∃ downlinkMedian rttMedian,
      sortedMedian (measurements.map (·.downlink)) = some downlinkMedian ∧
      sortedMedian (measurements.map (·.rtt)) = some rttMedian ∧
      updateFromMeasurements table st measurements
        = updateNetworkProperties table st downlinkMedian rttMedian false) ∧
    sortedMedian [1, 3, 5] = some 3 ∧
    sortedMedian [1, 2, 4, 5] = some 3 ∧
    sortedMedian [42] = some 42 ∧
    sortedMedian [10, 20] = some 15 := by
  refine ⟨?_, by decide, by decide, by decide, by decide⟩
  obtain ⟨dm, hdm⟩ := sortedMedian_isSome_of_ne_nil
    (measurements.map (·.downlink)) (by simpa using h)
  obtain ⟨rm, hrm⟩ := sortedMedian_isSome_of_ne_nil
    (measurements.map (·.rtt)) (by simpa using h)
  refine ⟨dm, rm, hdm, hrm, ?_⟩
  unfold updateFromMeasurements
  rw [if_neg (by simpa using h), hdm, hrm]

/-- C7: on the fallback path of `buildTiming` (no resource-timing entry,
wall-clock timestamps supplied) the network duration is
`max 1 ((end - start) - serverTime)`; a zero-byte probe gets latency
`max 1 (0.9 * duration)` and throughput `0`; a nonzero-byte probe gets
latency `min (0.3 * duration) 200`. -/
theorem buildTiming_fallback_spec
    (estimatedServerTime estimatedHeaderFraction : ℚ)
    (serverTimingHeader : Option ℚ) (numBytes : ℕ) (s e : ℚ) :
    ∃ t, buildTiming estimatedServerTime estimatedHeaderFraction none numBytes
        serverTimingHeader (some s) (some e) = some t ∧
      t.duration = max 1 ((e - s) -
        resolveServerTime serverTimingHeader estimatedServerTime) ∧
      (if numBytes = 0 then
        t.ping = max 1 (t.duration * 0.9) ∧ t.bps = 0
       else
        t.ping = min (t.duration * 0.3) 200) := by
  by_cases hz : numBytes = 0
  · subst hz
    exact ⟨_, rfl, rfl, by simp, rfl⟩
  · refine ⟨_, rfl, rfl, ?_⟩
    rw [if_neg hz]
    simp only [buildTiming, resolveServerTime]
    rw [if_neg hz]

/-- On a nonempty table `updateNetworkProperties` never throws. -/
theorem updateNetworkProperties_not_threw
    (table : List ConnectionClassification) (hT : table ≠ [])
    (st : EngineState) (d r : ℚ) (p : Bool) :
    (updateNetworkProperties table st d r p).threw = false := by
  obtain ⟨l, hl⟩ := classifyConnection_ok_of_ne_nil table hT (.fin d) (.fin r)
  simp only [updateNetworkProperties]
  rw [hl]
  split
  · simp_all
  · split <;> rfl

/-- On a nonempty table a final (non-preliminary) `updateNetworkProperties`
call always dispatches a `change` event, and that event is not marked
preliminary. -/
theorem updateNetworkProperties_final_event
    (table : List ConnectionClassification) (hT : table ≠ [])
    (st : EngineState) (d r : ℚ) :
    ∃ ev, (updateNetworkProperties table st d r false).event = some ev ∧
      ev.preliminary = false := by
  obtain ⟨l, hl⟩ := classifyConnection_ok_of_ne_nil table hT (.fin d) (.fin r)
  simp only [updateNetworkProperties]
  rw [hl]
  split
  · simp_all
  · simp only [or_true, if_true]
    exact ⟨_, rfl, rfl⟩

/-- With a nonempty table the probe loop never throws. -/
theorem measureLoop_not_threw (table : List ConnectionClassification)
    (hT : table ≠ []) (count : ℕ) (outcomes : ℕ → Option NetworkMeasurement) :
    ∀ (idxs : List ℕ) (st : EngineState),
      (measureLoop table count outcomes idxs st).threw = false := by
  intro idxs
  induction idxs with
  | nil => intro st; rfl
  | cons i rest ih =>
    intro st
    simp only [measureLoop]
    cases ho : outcomes i with
    | none => exact ih st
    | some m =>
      dsimp only
      by_cases hc : i = 0 ∧ count > 1
      · rw [if_pos hc,
          updateNetworkProperties_not_threw table hT st m.downlink m.rtt true]
        simpa using ih _
      · rw [if_neg hc]
        exact ih st

/-- If some listed probe succeeds, the loop collects at least one
sample. -/
theorem measureLoop_measurements_ne_nil
    (table : List ConnectionClassification) (count : ℕ)
    (outcomes : ℕ → Option NetworkMeasurement) :
    ∀ (idxs : List ℕ) (st : EngineState) (i : ℕ), i ∈ idxs →
      (outcomes i).isSome →
      (measureLoop table count outcomes idxs st).measurements ≠ [] := by
  intro idxs
  induction idxs with
  | nil => intro st i hi; cases hi
  | cons j rest ih =>
    intro st i hi hsome
    simp only [measureLoop]
    cases ho : outcomes j with
    | none =>
      dsimp only
      rcases List.mem_cons.mp hi with h | h
      · subst h
        rw [ho] at hsome
        cases hsome
      · exact ih st i h hsome
    | some m =>
      dsimp only
      by_cases hc : j = 0 ∧ count > 1
      · rw [if_pos hc]
        split <;> simp
      · rw [if_neg hc]
        simp

/-- If every listed probe fails, the loop changes nothing: same state, no
samples, a probe-only trace, no throw. -/
theorem measureLoop_all_none (table : List ConnectionClassification)
    (count : ℕ) (outcomes : ℕ → Option NetworkMeasurement) :
    ∀ (idxs : List ℕ) (st : EngineState), (∀ i ∈ idxs, outcomes i = none) →
      measureLoop table count outcomes idxs st =
        { st := st, measurements := [], trace := idxs.map .probe,
          threw := false } := by
  intro idxs
  induction idxs with
  | nil => intro st h; rfl
  | cons j rest ih =>
    intro st h
    simp only [measureLoop]
    rw [h j (List.mem_cons_self j rest)]
    dsimp only
    rw [ih st fun i hi => h i (List.mem_cons_of_mem j hi)]
    rfl

/-- If index 0 is not among the listed probes, the loop mutates no state
and dispatches no `change` event (the preliminary update is the only event
source inside the loop). -/
theorem measureLoop_no_zero (table : List ConnectionClassification)
    (count : ℕ) (outcomes : ℕ → Option NetworkMeasurement) :
    ∀ (idxs : List ℕ) (st : EngineState), (∀ i ∈ idxs, i ≠ 0) →
      (measureLoop table count outcomes idxs st).st = st ∧
      changeEvents (measureLoop table count outcomes idxs st).trace = [] ∧
      (measureLoop table count outcomes idxs st).threw = false := by
  intro idxs
  induction idxs with
  | nil => intro st h; exact ⟨rfl, rfl, rfl⟩
  | cons j rest ih =>
    intro st h
    have hj : j ≠ 0 := h j (List.mem_cons_self j rest)
    have hrest := fun i hi => h i (List.mem_cons_of_mem j hi)
    simp only [measureLoop]
    cases ho : outcomes j with
    | none =>
      dsimp only
      obtain ⟨h1, h2, h3⟩ := ih st hrest
      exact ⟨h1, by simpa [changeEvents] using h2, h3⟩
    | some m =>
      dsimp only
      rw [if_neg (by simp [hj])]
      obtain ⟨h1, h2, h3⟩ := ih st hrest
      exact ⟨h1, by simpa [changeEvents] using h2, h3⟩

/-- Every `updateNetworkProperties` call (including one that throws after
its assignments) keeps the claimed state invariant: it writes `downlink`
and `uplink = downlink * 0.5` together and never touches `saveData` or
`type`. -/
theorem updateNetworkProperties_invariant
    (table : List ConnectionClassification) (st : EngineState)
    (d r : ℚ) (p : Bool) (h : stateInvariantB st = true) :
    stateInvariantB (updateNetworkProperties table st d r p).st = true := by
  simp only [stateInvariantB, Bool.and_eq_true, Bool.not_eq_true',
    decide_eq_true_eq] at h
  simp only [updateNetworkProperties]
  split
  · simp [stateInvariantB, h.1.2, h.2]
  · split <;> simp [stateInvariantB, h.1.2, h.2]

/-- The probe loop preserves the claimed state invariant. -/
theorem measureLoop_invariant (table : List ConnectionClassification)
    (count : ℕ) (outcomes : ℕ → Option NetworkMeasurement) :
    ∀ (idxs : List ℕ) (st : EngineState), stateInvariantB st = true →
      stateInvariantB (measureLoop table count outcomes idxs st).st = true := by
  intro idxs
  induction idxs with
  | nil => intro st h; exact h
  | cons j rest ih =>
    intro st h
    simp only [measureLoop]
    cases ho : outcomes j with
    | none => exact ih st h
    | some m =>
      dsimp only
      by_cases hc : j = 0 ∧ count > 1
      · rw [if_pos hc]
        have hu := updateNetworkProperties_invariant table st m.downlink
          m.rtt true h
        split
        · exact hu
        · exact ih _ hu
      · rw [if_neg hc]
        exact ih st h

/-- The aggregation step preserves the claimed state invariant. -/
theorem updateFromMeasurements_invariant
    (table : List ConnectionClassification) (st : EngineState)
    (measurements : List NetworkMeasurement)
    (h : stateInvariantB st = true) :
    stateInvariantB (updateFromMeasurements table st measurements).st
      = true := by
  simp only [updateFromMeasurements]
  split
  · exact h
  · split
    · exact updateNetworkProperties_invariant table st _ _ false h
    · exact h

/-- A probe-only trace contains no `change` events. -/
theorem changeEvents_probe_map (idxs : List ℕ) :
    changeEvents (idxs.map .probe) = [] := by
  induction idxs with
  | nil => rfl
  | cons j rest ih => simp [changeEvents, ih]

/-- On a nonempty table, the aggregation step over a nonempty sample list
always dispatches a non-preliminary `change` event. -/
theorem updateFromMeasurements_final_event
    (table : List ConnectionClassification) (hT : table ≠ [])
    (st : EngineState) (measurements : List NetworkMeasurement)
    (hms : measurements ≠ []) :
    ∃ ev, (updateFromMeasurements table st measurements).event = some ev ∧
      ev.preliminary = false := by
  obtain ⟨dm, hdm⟩ := sortedMedian_isSome_of_ne_nil
    (measurements.map (·.downlink)) (by simpa using hms)
  obtain ⟨rm, hrm⟩ := sortedMedian_isSome_of_ne_nil
    (measurements.map (·.rtt)) (by simpa using hms)
  simp only [updateFromMeasurements]
  rw [if_neg (by simpa using hms), hdm, hrm]
  exact updateNetworkProperties_final_event table hT st dm rm

/-- C10: the connection-state invariant (uplink is half of downlink
whenever downlink is set, saveData is false, type is the sentinel
`unknown`) holds in the initial state and is preserved by every direct
state update and by every full measurement cycle. -/
theorem connectionState_invariant_preserved :
    stateInvariantB initialEngineState = true ∧
    (∀ (table : List ConnectionClassification) (st : EngineState)
        (d r : ℚ) (p : Bool), stateInvariantB st = true →
      stateInvariantB (updateNetworkProperties table st d r p).st = true) ∧
    (∀ (table : List ConnectionClassification) (count : ℕ)
        (outcomes : ℕ → Option NetworkMeasurement) (st : EngineState)
        (now : ℚ), stateInvariantB st = true →
      stateInvariantB (performMeasurement table count outcomes st now).1
        = true) := by
  refine ⟨rfl, updateNetworkProperties_invariant, ?_⟩
  intro table count outcomes st now h
  simp only [performMeasurement]
  split
  · exact h
  · have h1 : stateInvariantB
        { st with measuring := true, lastMeasurement := now } = true := h
    have h2 := measureLoop_invariant table count outcomes
      (List.range count) _ h1
    split
    · exact h2
    · exact updateFromMeasurements_invariant table _ _ h2

/-- Witness for C10 at a concrete cycle. -/
theorem connectionState_invariant_preserved_witness :
    stateInvariantB (performMeasurement wicgClassification 2
      firstProbeOnlyOutcomes initialEngineState 0).1 = true :=
  connectionState_invariant_preserved.2.2 wicgClassification 2
    firstProbeOnlyOutcomes initialEngineState 0 (by decide)

/-- C6: a measurement request made while a cycle is in flight (the
`measuring` flag is set) is a pure no-op: it returns at once with the
state untouched and an empty trace (no probes, no events). -/
theorem performMeasurement_reentrancy_guard
    (table : List ConnectionClassification) (count : ℕ)
    (outcomes : ℕ → Option NetworkMeasurement) (st : EngineState) (now : ℚ)
    (h : st.measuring = true) :
    performMeasurement table count outcomes st now = (st, []) := by
  unfold performMeasurement
  rw [if_pos h]

/-- Witness for C6 at a concrete in-flight state. -/
theorem performMeasurement_reentrancy_guard_witness :
    performMeasurement wicgClassification 2 firstProbeOnlyOutcomes
      { initialEngineState with measuring := true } 0
      = ({ initialEngineState with measuring := true }, []) :=
  performMeasurement_reentrancy_guard wicgClassification 2
    firstProbeOnlyOutcomes { initialEngineState with measuring := true } 0 rfl

/-- C5: a measurement cycle in which every probe fails leaves all six
connection-state fields (downlink, uplink, rtt, effectiveType, saveData,
type) exactly as they were and emits no `change` notification; in the
initial state all four optional fields are undefined, so they stay
undefined while no cycle ever succeeds. -/
theorem performMeasurement_all_fail_noop
    (table : List ConnectionClassification) (count : ℕ)
    (outcomes : ℕ → Option NetworkMeasurement) (st : EngineState) (now : ℚ)
    (h : ∀ i, i < count → outcomes i = none) :
    ((performMeasurement table count outcomes st now).1.downlink
        = st.downlink ∧
     (performMeasurement table count outcomes st now).1.uplink = st.uplink ∧
     (performMeasurement table count outcomes st now).1.rtt = st.rtt ∧
     (performMeasurement table count outcomes st now).1.effectiveType
        = st.effectiveType ∧
     (performMeasurement table count outcomes st now).1.saveData
        = st.saveData ∧
     (performMeasurement table count outcomes st now).1.type = st.type) ∧
    changeEvents (performMeasurement table count outcomes st now).2 = [] ∧
    (initialEngineState.downlink = none ∧ initialEngineState.uplink = none ∧
     initialEngineState.rtt = none ∧
     initialEngineState.effectiveType = none) := by
  refine ⟨?_, ?_, rfl, rfl, rfl, rfl⟩ <;>
  · unfold performMeasurement
    split
    · first
        | exact ⟨rfl, rfl, rfl, rfl, rfl, rfl⟩
        | rfl
    · simp only [measureNetworkSpeed]
      rw [measureLoop_all_none table count outcomes (List.range count) _
        fun i hi => h i (List.mem_range.mp hi)]
      first
        | exact ⟨rfl, rfl, rfl, rfl, rfl, rfl⟩
        | simp [updateFromMeasurements, changeEvents_probe_map, changeEvents,
            List.filterMap_append]

/-- Witness for C5 at a concrete all-failing cycle. -/
theorem performMeasurement_all_fail_noop_witness :
    (((performMeasurement wicgClassification 2 (fun _ => none)
        initialEngineState 0).1.downlink = initialEngineState.downlink ∧
      (performMeasurement wicgClassification 2 (fun _ => none)
        initialEngineState 0).1.uplink = initialEngineState.uplink ∧
      (performMeasurement wicgClassification 2 (fun _ => none)
        initialEngineState 0).1.rtt = initialEngineState.rtt ∧
      (performMeasurement wicgClassification 2 (fun _ => none)
        initialEngineState 0).1.effectiveType
          = initialEngineState.effectiveType ∧
      (performMeasurement wicgClassification 2 (fun _ => none)
        initialEngineState 0).1.saveData = initialEngineState.saveData ∧
      (performMeasurement wicgClassification 2 (fun _ => none)
        initialEngineState 0).1.type = initialEngineState.type) ∧
     changeEvents (performMeasurement wicgClassification 2 (fun _ => none)
        initialEngineState 0).2 = [] ∧
     (initialEngineState.downlink = none ∧ initialEngineState.uplink = none ∧
      initialEngineState.rtt = none ∧
      initialEngineState.effectiveType = none)) :=
  performMeasurement_all_fail_noop wicgClassification 2 (fun _ => none)
    initialEngineState 0 fun _ _ => rfl

/-- The empty trace has no change events. -/
theorem changeEvents_nil : changeEvents [] = [] := rfl

/-- A probe at the head of a trace contributes no change event. -/
theorem changeEvents_probe_cons (i : ℕ) (tr : List TraceItem) :
    changeEvents (.probe i :: tr) = changeEvents tr := rfl

/-- A change event at the head of a trace is kept. -/
theorem changeEvents_change_cons (e : NetworkChangeEventDetail)
    (tr : List TraceItem) :
    changeEvents (.change e :: tr) = e :: changeEvents tr := rfl

/-- `changeEvents` distributes over trace concatenation. -/
theorem changeEvents_append (a b : List TraceItem) :
    changeEvents (a ++ b) = changeEvents a ++ changeEvents b :=
  List.filterMap_append a b _

/-- Counterexample to C3 as stated: a two-probe cycle on the WICG table in
which only the first probe succeeds collects exactly one sample, the
preliminary step produces `4g`, the final aggregation produces the very
same `4g` — and the engine still pushes the final non-preliminary
notification, which the claim says is suppressed in this case. -/
theorem finalNotification_counterexample :
    (measureNetworkSpeed wicgClassification 2 firstProbeOnlyOutcomes
      { initialEngineState with measuring := true }).measurements.length
        = 1 ∧
    changeEvents (performMeasurement wicgClassification 2
        firstProbeOnlyOutcomes initialEngineState 0).2 =
      [{ downlink := some 2, uplink := some 1, rtt := some 50,
         effectiveType := some .fourG, preliminary := true },
       { downlink := some 2, uplink := some 1, rtt := some 50,
         effectiveType := some .fourG, preliminary := false }] := by
  decide

/-- C3 (amended): after every measurement cycle (nonempty table, guard not
taken) that collected at least one successful sample, a final
non-preliminary change notification is always pushed, as the cycle's last
change event — with no exception.  The suppression described by the claim
does not apply to final updates (it applies to preliminary ones). -/
theorem finalNotification_always_pushed
    (table : List ConnectionClassification) (count : ℕ)
    (outcomes : ℕ → Option NetworkMeasurement) (st : EngineState) (now : ℚ)
    (hT : table ≠ []) (hm : st.measuring = false)
    (hs : ∃ i, i < count ∧ (outcomes i).isSome) :
    ∃ ev, (changeEvents
        (performMeasurement table count outcomes st now).2).getLast?
      = some ev ∧ ev.preliminary = false := by
  obtain ⟨i, hi, hsome⟩ := hs
  unfold performMeasurement
  rw [if_neg (by simp [hm])]
  simp only [measureNetworkSpeed]
  rw [measureLoop_not_threw table hT count outcomes (List.range count)
    { st with measuring := true, lastMeasurement := now }]
  simp only [Bool.false_eq_true, if_false]
  have hne := measureLoop_measurements_ne_nil table count outcomes
    (List.range count) { st with measuring := true, lastMeasurement := now }
    i (List.mem_range.mpr hi) hsome
  obtain ⟨ev, hev, hp⟩ := updateFromMeasurements_final_event table hT _ _ hne
  rw [hev]
  refine ⟨ev, ?_, hp⟩
  simp [changeEvents_append, changeEvents, List.getLast?_concat]

/-- Witness for the amended C3 at a concrete single-probe cycle. -/
theorem finalNotification_always_pushed_witness :
    ∃ ev, (changeEvents (performMeasurement wicgClassification 1
        (fun _ => some sampleA) initialEngineState 0).2).getLast?
      = some ev ∧ ev.preliminary = false :=
  finalNotification_always_pushed wicgClassification 1 (fun _ => some sampleA)
    initialEngineState 0 (by decide) rfl ⟨0, by decide, rfl⟩

/-- Counterexample to C4 as stated: a second two-probe cycle, run from the
state a first cycle left behind (`effectiveType = 4g`, not measuring),
whose first probe succeeds with another `4g` sample — yet the cycle's
change events consist of the final notification alone: no notification
with `preliminary = true` is pushed, because the preliminary label equals
the previous one. -/
theorem preliminaryNotification_counterexample :
    secondCycleOutcomes 0 = some sampleB ∧
    stateAfterFirstCycle.measuring = false ∧
    changeEvents (performMeasurement wicgClassification 2 secondCycleOutcomes
        stateAfterFirstCycle 0).2 =
      [{ downlink := some 3, uplink := some 1.5, rtt := some 40,
         effectiveType := some .fourG, preliminary := false }] := by
  decide

/-- C4 (amended): when the first probe of a cycle with more than one probe
succeeds, the engine immediately applies the preliminary update, but the
preliminary notification is pushed only when the sample's classification
differs from the previous `effectiveType`.  When pushed, it carries that
sample's own downlink and rtt and sits in the trace immediately after
probe 0, before any later probe; when the label is unchanged, no
preliminary notification is pushed at all — every change event of the
cycle is non-preliminary. -/
theorem preliminaryNotification_conditional
    (table : List ConnectionClassification) (count : ℕ)
    (outcomes : ℕ → Option NetworkMeasurement) (st : EngineState) (now : ℚ)
    (m : NetworkMeasurement) (hT : table ≠ []) (hm : st.measuring = false)
    (h0 : outcomes 0 = some m) (hcount : 1 < count) :
    ∃ et, _classifyConnection table (.fin m.downlink) (.fin m.rtt)
        = .ok et ∧
      (st.effectiveType ≠ some et →
        ∃ rest, (performMeasurement table count outcomes st now).2
          = .probe 0 :: .change
              { downlink := some m.downlink,
                uplink := some (m.downlink * 0.5), rtt := some m.rtt,
                effectiveType := some et, preliminary := true } :: rest) ∧
      (st.effectiveType = some et →
        ∀ e ∈ changeEvents
            (performMeasurement table count outcomes st now).2,
          e.preliminary = false) := by
  obtain ⟨et, het⟩ := classifyConnection_ok_of_ne_nil table hT
    (.fin m.downlink) (.fin m.rtt)
  obtain ⟨k, rfl⟩ : ∃ k, count = k + 1 := ⟨count - 1, by omega⟩
  refine ⟨et, het, ?_, ?_⟩
  · intro hne
    unfold performMeasurement
    rw [if_neg (by simp [hm])]
    simp only [measureNetworkSpeed, List.range_succ_eq_map]
    simp only [measureLoop]
    rw [h0]
    dsimp only
    rw [if_pos (show True ∧ k + 1 > 1 from ⟨trivial, hcount⟩)]
    simp only [updateNetworkProperties]
    rw [het]
    dsimp only
    rw [if_pos (show st.effectiveType ≠ some et ∨ true = false
      from Or.inl hne)]
    dsimp only
    simp only [Bool.false_eq_true, if_false]
    split <;> exact ⟨_, rfl⟩
  · intro heq
    unfold performMeasurement
    rw [if_neg (by simp [hm])]
    simp only [measureNetworkSpeed, List.range_succ_eq_map]
    simp only [measureLoop]
    rw [h0]
    dsimp only
    rw [if_pos (show True ∧ k + 1 > 1 from ⟨trivial, hcount⟩)]
    simp only [updateNetworkProperties]
    rw [het]
    dsimp only
    rw [if_neg (show ¬(st.effectiveType ≠ some et ∨ true = false)
      from by simp [heq])]
    dsimp only [List.nil_append]
    have hnz : ∀ i ∈ (List.range k).map Nat.succ, i ≠ 0 := by
      intro i hi
      obtain ⟨j, -, rfl⟩ := List.mem_map.mp hi
      exact Nat.succ_ne_zero j
    obtain ⟨-, hch, hthrew⟩ := measureLoop_no_zero table (k + 1) outcomes
      ((List.range k).map Nat.succ)
      { downlink := some m.downlink, uplink := some (m.downlink * 0.5),
        rtt := some m.rtt, effectiveType := some et,
        saveData := st.saveData, type := st.type, measuring := true,
        lastMeasurement := now } hnz
    rw [hthrew]
    simp only [Bool.false_eq_true, if_false]
    obtain ⟨ev2, hev2, hp2⟩ := updateFromMeasurements_final_event table hT
      (measureLoop table (k + 1) outcomes ((List.range k).map Nat.succ)
        { downlink := some m.downlink, uplink := some (m.downlink * 0.5),
          rtt := some m.rtt, effectiveType := some et,
          saveData := st.saveData, type := st.type, measuring := true,
          lastMeasurement := now }).st
      (m :: (measureLoop table (k + 1) outcomes
        ((List.range k).map Nat.succ)
        { downlink := some m.downlink, uplink := some (m.downlink * 0.5),
          rtt := some m.rtt, effectiveType := some et,
          saveData := st.saveData, type := st.type, measuring := true,
          lastMeasurement := now }).measurements)
      (List.cons_ne_nil m _)
    rw [hev2]
    intro e he
    simp [changeEvents_append, changeEvents_probe_cons,
      changeEvents_change_cons, changeEvents_nil, hch] at he
    subst he
    exact hp2

/-- Witness for the amended C4 at a concrete first cycle (label changes
from undefined to `4g`, so the preliminary notification is pushed). -/
theorem preliminaryNotification_conditional_witness :
    ∃ et, _classifyConnection wicgClassification (.fin sampleA.downlink)
        (.fin sampleA.rtt) = .ok et ∧
      (initialEngineState.effectiveType ≠ some et →
        ∃ rest, (performMeasurement wicgClassification 2
            firstProbeOnlyOutcomes initialEngineState 0).2
          = .probe 0 :: .change
              { downlink := some sampleA.downlink,
                uplink := some (sampleA.downlink * 0.5),
                rtt := some sampleA.rtt,
                effectiveType := some et, preliminary := true } :: rest) ∧
      (initialEngineState.effectiveType = some et →
        ∀ e ∈ changeEvents (performMeasurement wicgClassification 2
            firstProbeOnlyOutcomes initialEngineState 0).2,
          e.preliminary = false) :=
  preliminaryNotification_conditional wicgClassification 2
    firstProbeOnlyOutcomes initialEngineState 0 sampleA (by decide) rfl
    (by decide) (by decide)

/-- Witness for C1 at a concrete valid measurement on the WICG table. -/
theorem classifyConnection_scan_spec_witness :
    (_classifyConnection wicgClassification (.fin 3) (.fin 10)
      = (specClassify wicgClassification 3 10).elim (.error ()) Except.ok) ∧
    _classifyConnection wicgClassification (.fin 0.04) (.fin 100)
      = .ok .slow2g ∧
    _classifyConnection wicgClassification (.fin 0.1) (.fin 1500)
      = .ok .slow2g ∧
    _classifyConnection wicgClassification (.fin 0.06) (.fin 100)
      = .ok .twoG ∧
    _classifyConnection wicgClassification (.fin 0.1) (.fin 500)
      = .ok .twoG ∧
    _classifyConnection wicgClassification (.fin 0.5) (.fin 100)
      = .ok .threeG ∧
    _classifyConnection wicgClassification (.fin 0.7) (.fin 100)
      = .ok .fourG ∧
    _classifyConnection wicgClassification (.fin 2) (.fin 50)
      = .ok .fourG :=
  classifyConnection_scan_spec wicgClassification 3 10 (by decide)
    (by decide) (by decide)

/-- Witness for C2 at a NaN downlink on the WICG table. -/
theorem classifyConnection_invalid_first_label_witness :
    _classifyConnection wicgClassification .nan (.fin 100)
      = .ok EffectiveConnectionType.slow2g :=
  classifyConnection_invalid_first_label
    { type := .slow2g, maxDownlink := some 0.05, minRtt := some 1400 }
    [ { type := .twoG, maxDownlink := some 0.07, minRtt := some 270 },
      { type := .threeG, maxDownlink := some 0.7 },
      { type := .fourG } ]
    .nan (.fin 100)
    (Or.inl (by rintro ⟨q, hq, -⟩; cases hq))

/-- Witness for C8 at a concrete single-sample aggregation. -/
theorem updateFromMeasurements_median_spec_witness :
    (∃ downlinkMedian rttMedian,
      sortedMedian ([sampleA].map (·.downlink)) = some downlinkMedian ∧
      sortedMedian ([sampleA].map (·.rtt)) = some rttMedian ∧
      updateFromMeasurements wicgClassification initialEngineState [sampleA]
        = updateNetworkProperties wicgClassification initialEngineState
            downlinkMedian rttMedian false) ∧
    sortedMedian [1, 3, 5] = some 3 ∧
    sortedMedian [1, 2, 4, 5] = some 3 ∧
    sortedMedian [42] = some 42 ∧
    sortedMedian [10, 20] = some 15 :=
  updateFromMeasurements_median_spec wicgClassification initialEngineState
    [sampleA] (List.cons_ne_nil sampleA [])
